import Mathlib

/-!
Verification of `brainfuck.py`, a brainfuck-to-Python-AST compiler.

The embedding follows the source closely:

* `parse_ast` mirrors `brainfuck.parse_ast` (lines 95-145): a left-to-right
  scan over the characters of the code, keeping the current statement list
  and a stack of enclosing statement lists.  On `[` the template
  `while memory[data_ptr]: pass` contributes a `pass` statement at the head
  of the new body; on `]` with an empty stack Python's `list.pop(0)` raises
  `IndexError`; at end of scan the current list is returned even when the
  stack is non-empty (unclosed `[`).
* the execution model interprets the statements that `parse_ast` builds from
  strings: `data_ptr += 1`, `memory[data_ptr] += 1`,
  `output.write(chr(memory[data_ptr]))` (where `chr` rejects arguments
  outside `0 .. 0x10FFFF` with `ValueError`),
  `_tmp = input.read(1)` followed by
  `memory[data_ptr] = ord(_tmp) if _tmp else -1`, and
  `while memory[data_ptr]: ...`.  Memory is `defaultdict(int)` over a signed
  integer pointer; execution is fueled because a while loop need not stop.
* the loader model mirrors `BrainfuckImporter` and the hook management
  functions `install_import_hook` / `remove_import_hook`, with `sys.modules`,
  `sys.meta_path`, `sys.path` and the file system made explicit state.
-/

namespace BF

/-- Python exceptions that `parse_ast` can raise: `instruction_stack.pop(0)`
on an empty list raises `IndexError`. -/
inductive PyErr where
  | indexError
  deriving DecidableEq, Repr

/-- Python exceptions the generated statements can raise at run time:
`chr(v)` raises `ValueError` when `v` is outside `range(0x110000)`. -/
inductive ExecErr where
  | valueError
  deriving DecidableEq, Repr

/-- One statement of the Python AST produced by `parse_ast`.  `readTmp` and
`storeTmp` are the two statements appended for `,`; `passStmt` is the `pass`
in the template `while memory[data_ptr]: pass`. -/
inductive Instr where
  | incPtr
  | decPtr
  | incCell
  | decCell
  | output
  | readTmp
  | storeTmp
  | passStmt
  | whileLoop (body : List Instr)

/-- The scan loop of `parse_ast` (lines 109-145): `cur` is the mutable list
`instructions`, `stack` is `instruction_stack` (front = most recent).  On `[`
the Python code appends a fresh `while` node to the parent and rebinds
`instructions` to the node body `[pass]`; the body is filled in by aliasing,
which the pure scan renders by appending `whileLoop cur` to the parent when
the matching `]` is seen.  At end of input the current list is returned even
if the stack is non-empty, exactly as the source does. -/
def parseAst : List Char → List Instr → List (List Instr) → Except PyErr (List Instr)
  | [], cur, _ => .ok cur
  | c :: rest, cur, stack =>
    if c = '>' then parseAst rest (cur ++ [.incPtr]) stack
    else if c = '<' then parseAst rest (cur ++ [.decPtr]) stack
    else if c = '+' then parseAst rest (cur ++ [.incCell]) stack
    else if c = '-' then parseAst rest (cur ++ [.decCell]) stack
    else if c = '.' then parseAst rest (cur ++ [.output]) stack
    else if c = ',' then parseAst rest (cur ++ [.readTmp, .storeTmp]) stack
    else if c = '[' then parseAst rest [.passStmt] (cur :: stack)
    else if c = ']' then
      match stack with
      | [] => .error .indexError
      | parent :: stackRest => parseAst rest (parent ++ [.whileLoop cur]) stackRest
    else parseAst rest cur stack

/-- The entry point `brainfuck.parse_ast`: scan the whole code starting from an empty
instruction list and an empty stack. -/
def parse_ast (code : List Char) : Except PyErr (List Instr) :=
  parseAst code [] []

/-- The eight characters that `parse_ast` recognizes; every other character
falls through all branches and is ignored. -/
def isBfSymbol (c : Char) : Bool :=
  c = '>' || c = '<' || c = '+' || c = '-' || c = '.' || c = ',' || c = '[' || c = ']'

/-- Point update of the `defaultdict(int)` memory. -/
def setMem (m : Int → Int) (a v : Int) : Int → Int :=
  fun x => if x = a then v else m x

/-- Run-time state of the generated code: `data_ptr`, `memory`
(`defaultdict(int)`, unaddressed cells are 0), the codes written to `output`
so far, the codes remaining on `input`, and the `_tmp` variable (`some b`
after reading a character with code `b`, `none` for the empty string read at
end of stream). -/
structure St where
  dataPtr : Int
  memory : Int → Int
  outBuf : List Int
  inBuf : List Nat
  tmp : Option Nat

mutual

/-- Execute one statement.  Fuel bounds the number of while-loop iterations;
`none` means fuel ran out (the Python program would still be running). -/
def execI (fuel : Nat) (ins : Instr) (s : St) : Option (Except ExecErr St) :=
  match ins with
  | .incPtr => some (.ok { s with dataPtr := s.dataPtr + 1 })
  | .decPtr => some (.ok { s with dataPtr := s.dataPtr - 1 })
  | .incCell =>
      some (.ok { s with memory := setMem s.memory s.dataPtr (s.memory s.dataPtr + 1) })
  | .decCell =>
      some (.ok { s with memory := setMem s.memory s.dataPtr (s.memory s.dataPtr - 1) })
  | .output =>
      let v := s.memory s.dataPtr
      if 0 ≤ v ∧ v < 1114112 then some (.ok { s with outBuf := s.outBuf ++ [v] })
      else some (.error .valueError)
  | .readTmp =>
      match s.inBuf with
      | [] => some (.ok { s with tmp := none })
      | b :: rest => some (.ok { s with tmp := some b, inBuf := rest })
  | .storeTmp =>
      match s.tmp with
      | some b => some (.ok { s with memory := setMem s.memory s.dataPtr (Int.ofNat b) })
      | none => some (.ok { s with memory := setMem s.memory s.dataPtr (-1) })
  | .passStmt => some (.ok s)
  | .whileLoop body =>
      if s.memory s.dataPtr ≠ 0 then
        match fuel with
        | 0 => none
        | f + 1 =>
          match execL f body s with
          | none => none
          | some (.error e) => some (.error e)
          | some (.ok s1) => execI f (.whileLoop body) s1
      else some (.ok s)
termination_by (fuel, sizeOf ins)

/-- Execute a statement list in order, stopping at the first exception. -/
def execL (fuel : Nat) (prog : List Instr) (s : St) : Option (Except ExecErr St) :=
  match prog with
  | [] => some (.ok s)
  | i :: rest =>
    match execI fuel i s with
    | none => none
    | some (.error e) => some (.error e)
    | some (.ok s1) => execL fuel rest s1
termination_by (fuel, sizeOf prog)

end

/-- Sequencing for fueled results: continue with `k` only on a normal
result. -/
def andThen (r : Option (Except ExecErr St)) (k : St → Option (Except ExecErr St)) :
    Option (Except ExecErr St) :=
  match r with
  | none => none
  | some (.error e) => some (.error e)
  | some (.ok s) => k s

/-- The closure produced by `to_function`: the only data it captures is the
compiled statement list.  The locals of the generated `_brainfuck` body
(`data_ptr`, `memory`, `output`, `input`, `_tmp`) are created afresh inside
each call and are not part of the closure. -/
structure BFFunction where
  prog : List Instr

/-- Model of `to_function`: parse the code once and close over the statement list.
Raises (returns `Except.error`) exactly when `parse_ast` does. -/
def to_function (code : List Char) : Except PyErr BFFunction :=
  (parse_ast code).map (fun prog => ⟨prog⟩)

/-- One call of a `to_function` result.  The body of the generated function
first binds `data_ptr = 0`, `memory = defaultdict(int)`, a fresh output
buffer and an input buffer holding exactly the call's argument, then runs
the compiled statements and returns `output.getvalue()`.  The closure is
returned unchanged: a call leaves no trace in the function. -/
def invokeFunction (f : BFFunction) (fuel : Nat) (inputStr : List Nat) :
    Option (Except ExecErr (List Int)) × BFFunction :=
  let s0 : St :=
    { dataPtr := 0, memory := fun _ => 0, outBuf := [], inBuf := inputStr, tmp := none }
  let result :=
    match execL fuel f.prog s0 with
    | none => none
    | some (.error e) => some (.error e)
    | some (.ok s) => some (.ok s.outBuf)
  (result, f)

/-! ## Module resolution and loading

`sys.modules`, `sys.path`, `sys.meta_path` and the file system are explicit
state.  Python strings (names, paths, file contents) are all modelled as
character lists; dictionaries are association lists; the file system is the
association list of existing files and their contents. -/

/-- Dictionary lookup (`fullname in sys.modules` / `sys.modules[fullname]`). -/
def alookup {κ α : Type} [DecidableEq κ] (k : κ) : List (κ × α) → Option α
  | [] => none
  | (k1, v) :: rest => if k = k1 then some v else alookup k rest

/-- A path or name: a Python string as a character list. -/
abbrev PyStr := List Char

/-- Python `fullname.split(".")`: split at every dot; always non-empty, empty
segments preserved. -/
def splitDots : PyStr → List PyStr
  | [] => [[]]
  | c :: rest =>
    let r := splitDots rest
    if c = '.' then [] :: r
    else (c :: r.headD []) :: r.tail

/-- Python `os.path.join` for two POSIX path segments: an absolute second segment
discards the first; otherwise the segments are joined with `/`, without
doubling a trailing separator. -/
def osJoin2 (a b : PyStr) : PyStr :=
  if b.head? = some '/' then b
  else if a = [] ∨ a.getLast? = some '/' then a ++ b
  else a ++ '/' :: b

/-- Fold of `os.path.join(*path_parts)` over a non-empty list of segments. -/
def osJoin : List PyStr → PyStr
  | [] => []
  | p :: rest => rest.foldl osJoin2 p

/-- Python `os.path.exists` over the explicit file system. -/
def fileExists (fs : List (PyStr × PyStr)) (p : PyStr) : Bool :=
  (alookup p fs).isSome

/-- The candidate path `_find_module_path` builds for one search-path entry
and one extension: `"{}.{}".format(parts[-1], extension)` appended to the
non-empty base path and the parent segments, then joined. -/
def candidatePath (fullname basePath ext : PyStr) : PyStr :=
  let parts := splitDots fullname
  let filename := parts.getLastD [] ++ '.' :: ext
  let pathParts := (if basePath ≠ [] then [basePath] else []) ++ parts.dropLast ++ [filename]
  osJoin pathParts

/-- Inner loop of `_find_module_path`: try each extension in order for a
fixed search-path entry. -/
def findExtLoop (fs : List (PyStr × PyStr)) (fullname basePath : PyStr) :
    List PyStr → Option PyStr
  | [] => none
  | ext :: extRest =>
    if fileExists fs (candidatePath fullname basePath ext) then
      some (candidatePath fullname basePath ext)
    else findExtLoop fs fullname basePath extRest

/-- Model of `BrainfuckImporter._find_module_path` (lines 198-213): outer loop over
`sys.path`, inner loop over the importer's file extensions, first existing
candidate wins, `None` when no candidate exists. -/
def find_module_path (fs : List (PyStr × PyStr)) (exts : List PyStr)
    (fullname : PyStr) : List PyStr → Option PyStr
  | [] => none
  | basePath :: pathRest =>
    match findExtLoop fs fullname basePath exts with
    | some p => some p
    | none => find_module_path fs exts fullname pathRest

/-- Modelled from the spec (§4.4 `resolve`): the ordered candidate list,
directories in search-path order and, within each directory, extensions in
order. -/
def resolveCandidates (sysPath exts : List PyStr) (fullname : PyStr) : List PyStr :=
  (sysPath.map (fun basePath => exts.map (fun ext => candidatePath fullname basePath ext))).flatten

/-- Modelled from the spec (§4.4 `resolve`): return the first candidate that
exists on the file system, not-found when no candidate exists. -/
def resolveSpec (sysPath exts : List PyStr) (fs : List (PyStr × PyStr))
    (fullname : PyStr) : Option PyStr :=
  (resolveCandidates sysPath exts fullname).find? (fun p => fileExists fs p)

/-- The importer object: `BrainfuckImporter(file_extensions=...)`. -/
structure Importer where
  file_extensions : List PyStr
  deriving DecidableEq, Repr

/-- The default importer, `BrainfuckImporter()` with extensions `("bf", "b")`. -/
def defaultImporter : Importer := ⟨[['b', 'f'], ['b']]⟩

/-- A loaded `BrainfuckModule`: it stores the source under
`__brainfuck_code__` and the statement list compiled by `to_function` under
`__brainfuck_function__`. -/
structure BFModule where
  fullname : PyStr
  code : PyStr
  prog : List Instr

/-- The loader-visible process state: `sys.modules`, the file system and
`sys.path`. -/
structure LoaderState where
  sysModules : List (PyStr × BFModule)
  fs : List (PyStr × PyStr)
  sysPath : List PyStr

/-- Observable side effects of `load_module`, recorded so that "no re-read,
no re-translation" is a provable statement. -/
inductive LoadEvent where
  | fileRead (path : PyStr)
  | translated (code : PyStr)

/-- Failures of `load_module`: `raise ImportError` when resolution fails,
and the `IndexError` that `parse_ast` raises inside the `BrainfuckModule`
constructor propagates. -/
inductive LoadErr where
  | importError
  | pyError (e : PyErr)

/-- Model of `BrainfuckImporter.load_module` (lines 180-196): return the cached
module when `fullname` is already in `sys.modules`; otherwise resolve the
path, read the file, build the module (which translates the code), store it
in `sys.modules` and return it. -/
def load_module (imp : Importer) (st : LoaderState) (fullname : PyStr) :
    Except LoadErr (BFModule × LoaderState × List LoadEvent) :=
  match alookup fullname st.sysModules with
  | some m => .ok (m, st, [])
  | none =>
    match find_module_path st.fs imp.file_extensions fullname st.sysPath with
    | none => .error .importError
    | some path =>
      match alookup path st.fs with
      | none => .error .importError
      | some code =>
        match parse_ast code with
        | .error e => .error (.pyError e)
        | .ok prog =>
          let m : BFModule := ⟨fullname, code, prog⟩
          .ok (m, { st with sysModules := (fullname, m) :: st.sysModules },
               [.fileRead path, .translated code])

/-- One entry of `sys.meta_path`: either an instance of `BrainfuckImporter`
(`isinstance` is true) or some unrelated finder. -/
inductive MetaEntry where
  | bf (imp : Importer)
  | other (id : Nat)
  deriving DecidableEq, Repr

/-- Model of `install_import_hook` (lines 216-234): replace the first
`BrainfuckImporter` found in `sys.meta_path` in place and return `False`,
or append the importer and return `True` when none is found. -/
def install_import_hook (imp : Importer) : List MetaEntry → Bool × List MetaEntry
  | [] => (true, [.bf imp])
  | .bf _ :: rest => (false, .bf imp :: rest)
  | e :: rest =>
    let r := install_import_hook imp rest
    (r.1, e :: r.2)

/-- Model of `remove_import_hook` (lines 237-245): delete the first
`BrainfuckImporter` found in `sys.meta_path` and return `True`, or return
`False` when none is found. -/
def remove_import_hook : List MetaEntry → Bool × List MetaEntry
  | [] => (false, [])
  | .bf _ :: rest => (true, rest)
  | e :: rest =>
    let r := remove_import_hook rest
    (r.1, e :: r.2)

/-- Number of `BrainfuckImporter` instances in a `sys.meta_path` list. -/
def countBf : List MetaEntry → Nat
  | [] => 0
  | .bf _ :: rest => countBf rest + 1
  | _ :: rest => countBf rest

/-- The full process state touched by the import hook machinery. -/
structure GlobalState where
  metaPath : List MetaEntry
  loader : LoaderState

/-- The effect of `remove_import_hook` acting on the full process state: it only touches
`sys.meta_path` (the source comments that imported modules stay in
`sys.modules`). -/
def removeHookGlobal (g : GlobalState) : Bool × GlobalState :=
  let r := remove_import_hook g.metaPath
  (r.1, { g with metaPath := r.2 })

/-! ## Concrete states used by the witnesses -/

/-- Fresh run-time state with empty input. -/
def stZero : St :=
  { dataPtr := 0, memory := fun _ => 0, outBuf := [], inBuf := [], tmp := none }

/-- Run-time state whose current cell holds 1. -/
def stOne : St :=
  { stZero with memory := setMem stZero.memory 0 1 }

/-- Run-time state whose current cell holds the EOF sentinel -1. -/
def stNeg : St :=
  { stZero with memory := setMem stZero.memory 0 (-1) }

/-- Run-time state whose input holds the single character code 65. -/
def stIn : St :=
  { stZero with inBuf := [65] }

/-- A file system with one brainfuck source file `m.bf` containing `+`. -/
def ldSt0 : LoaderState :=
  { sysModules := [], fs := [(['m', '.', 'b', 'f'], ['+'])], sysPath := [[]] }

/-- The module that loading `m` from `ldSt0` builds. -/
def mMod : BFModule :=
  { fullname := ['m'], code := ['+'], prog := [.incCell] }

/-- The loader state after loading `m` from `ldSt0`. -/
def ldSt1 : LoaderState :=
  { ldSt0 with sysModules := [(['m'], mMod)] }

/-- A process state with one other finder on `sys.meta_path` plus the
brainfuck importer, and module `m` already loaded. -/
def gSt1 : GlobalState :=
  { metaPath := [.other 0, .bf defaultImporter], loader := ldSt1 }

end BF

namespace BF

/-! ## Claims -/

/-- C1: the claim says that `translate` fails with a ParseError on
unbalanced loop markers and produces no Program.  The code does neither: an
unclosed opening marker (`"+["`) makes `parse_ast` return a partial
statement list (the unclosed loop's body, here just the template `pass`
statement) without raising, and an unmatched closing marker (`"+]"`) raises
`IndexError` from `instruction_stack.pop(0)`, not a ParseError. -/
theorem unbalanced_markers_no_parse_error :
    parse_ast ['+', '['] = .ok [.passStmt] ∧
    parse_ast ['+', ']'] = .error .indexError :=
  ⟨rfl, rfl⟩

/-- Helper for C4: skipping unrecognized characters is invisible to the
scan, whatever the current list and stack are. -/
theorem parseAst_filter :
    ∀ (code : List Char) (cur : List Instr) (stack : List (List Instr)),
      parseAst code cur stack = parseAst (code.filter isBfSymbol) cur stack := by
  intro code
  induction code with
  | nil => intro cur stack; rfl
  | cons c rest ih =>
    intro cur stack
    rw [List.filter_cons]
    by_cases h1 : c = '>'
    · simp [parseAst, isBfSymbol, h1]; exact ih _ _
    · by_cases h2 : c = '<'
      · simp [parseAst, isBfSymbol, h1, h2]; exact ih _ _
      · by_cases h3 : c = '+'
        · simp [parseAst, isBfSymbol, h1, h2, h3]; exact ih _ _
        · by_cases h4 : c = '-'
          · simp [parseAst, isBfSymbol, h1, h2, h3, h4]; exact ih _ _
          · by_cases h5 : c = '.'
            · simp [parseAst, isBfSymbol, h1, h2, h3, h4, h5]; exact ih _ _
            · by_cases h6 : c = ','
              · simp [parseAst, isBfSymbol, h1, h2, h3, h4, h5, h6]; exact ih _ _
              · by_cases h7 : c = '['
                · simp [parseAst, isBfSymbol, h1, h2, h3, h4, h5, h6, h7]; exact ih _ _
                · by_cases h8 : c = ']'
                  · subst h8
                    cases stack with
                    | nil => simp [parseAst, isBfSymbol, h1, h2, h3, h4, h5, h6, h7]
                    | cons parent stackRest =>
                      simp [parseAst, isBfSymbol, h1, h2, h3, h4, h5, h6, h7]
                      exact ih _ _
                  · simp [parseAst, isBfSymbol, h1, h2, h3, h4, h5, h6, h7, h8]
                    exact ih _ _

/-- C4: each of the eight symbols steps the scan by its one construction
rule, and every other character is ignored, so translating a source text
gives the same result as translating the text with all non-symbol
characters removed. -/
theorem translate_symbol_rules_ignore_comments :
    (∀ code, parse_ast code = parse_ast (code.filter isBfSymbol)) ∧
    (∀ rest cur stack,
      parseAst ('>' :: rest) cur stack = parseAst rest (cur ++ [.incPtr]) stack ∧
      parseAst ('<' :: rest) cur stack = parseAst rest (cur ++ [.decPtr]) stack ∧
      parseAst ('+' :: rest) cur stack = parseAst rest (cur ++ [.incCell]) stack ∧
      parseAst ('-' :: rest) cur stack = parseAst rest (cur ++ [.decCell]) stack ∧
      parseAst ('.' :: rest) cur stack = parseAst rest (cur ++ [.output]) stack ∧
      parseAst (',' :: rest) cur stack = parseAst rest (cur ++ [.readTmp, .storeTmp]) stack ∧
      parseAst ('[' :: rest) cur stack = parseAst rest [.passStmt] (cur :: stack) ∧
      parseAst (']' :: rest) cur [] = .error .indexError ∧
      (∀ parent stackRest,
        parseAst (']' :: rest) cur (parent :: stackRest) =
          parseAst rest (parent ++ [.whileLoop cur]) stackRest)) := by
  refine ⟨fun code => parseAst_filter code [] [], fun rest cur stack => ?_⟩
  refine ⟨rfl, rfl, rfl, rfl, rfl, rfl, rfl, rfl, fun parent stackRest => rfl⟩

/-- C2: executing the pair of statements generated for `,` sets the current
cell to the read byte's code and consumes it when input remains, and sets
the current cell to the sentinel -1 (raising nothing) at end of stream. -/
theorem input_sets_cell_or_sentinel :
    parse_ast [','] = .ok [.readTmp, .storeTmp] ∧
    (∀ fuel s b rest, s.inBuf = b :: rest →
      execL fuel [.readTmp, .storeTmp] s =
        some (.ok { s with memory := setMem s.memory s.dataPtr (Int.ofNat b),
                           inBuf := rest, tmp := some b })) ∧
    (∀ fuel s, s.inBuf = [] →
      execL fuel [.readTmp, .storeTmp] s =
        some (.ok { s with memory := setMem s.memory s.dataPtr (-1), tmp := none })) := by
  refine ⟨rfl, ?_, ?_⟩
  · intro fuel s b rest h
    simp [execL, execI, h]
  · intro fuel s h
    simp [execL, execI, h]

/-- C2 witness: a read of `A` (code 65) stores 65, and a read at end of
stream stores -1. -/
theorem input_sets_cell_or_sentinel_witness :
    (stIn.inBuf = 65 :: [] ∧
      execL 1 [.readTmp, .storeTmp] stIn =
        some (.ok { stIn with memory := setMem stIn.memory stIn.dataPtr (Int.ofNat 65),
                              inBuf := [], tmp := some 65 })) ∧
    (stZero.inBuf = [] ∧
      execL 1 [.readTmp, .storeTmp] stZero =
        some (.ok { stZero with memory := setMem stZero.memory stZero.dataPtr (-1),
                                tmp := none })) :=
  ⟨⟨rfl, input_sets_cell_or_sentinel.2.1 1 stIn 65 [] rfl⟩,
   ⟨rfl, input_sets_cell_or_sentinel.2.2 1 stZero rfl⟩⟩

/-- C3: the generated `while` checks the current cell first: it returns the
state unchanged when the cell is 0 (zero iterations), and otherwise runs the
whole body and only then re-enters the check. -/
theorem loop_has_while_semantics :
    (∀ fuel body s, s.memory s.dataPtr = 0 →
      execI fuel (.whileLoop body) s = some (.ok s)) ∧
    (∀ fuel body s, s.memory s.dataPtr ≠ 0 →
      execI (fuel + 1) (.whileLoop body) s =
        andThen (execL fuel body s) (execI fuel (.whileLoop body))) := by
  constructor
  · intro fuel body s h
    rw [execI.eq_def]
    simp [h]
  · intro fuel body s h
    rw [execI.eq_def]
    simp only [h, ne_eq, not_false_eq_true, if_true]
    cases hr : execL fuel body s with
    | none => simp [andThen, hr]
    | some r =>
      cases r with
      | error e => simp [andThen, hr]
      | ok s1 => simp [andThen, hr]

/-- C3 witness: a loop over a zero cell does nothing; a loop over a nonzero
cell unfolds to one body run followed by the re-check. -/
theorem loop_has_while_semantics_witness :
    (stZero.memory stZero.dataPtr = 0 ∧
      execI 3 (.whileLoop [.passStmt]) stZero = some (.ok stZero)) ∧
    (stOne.memory stOne.dataPtr ≠ 0 ∧
      execI 4 (.whileLoop [.passStmt]) stOne =
        andThen (execL 3 [.passStmt] stOne) (execI 3 (.whileLoop [.passStmt]))) :=
  ⟨⟨rfl, loop_has_while_semantics.1 3 [.passStmt] stZero rfl⟩,
   ⟨by decide, loop_has_while_semantics.2 3 [.passStmt] stOne (by decide)⟩⟩

/-- C10: `output.write(chr(memory[data_ptr]))` raises `ValueError` whenever
the current cell is negative — in particular on the -1 sentinel that `,`
writes at end of stream, as the run of the program `,.` on empty input
shows. -/
theorem output_negative_cell_raises :
    (∀ fuel s, s.memory s.dataPtr < 0 →
      execI fuel .output s = some (.error .valueError)) ∧
    parse_ast [',', '.'] = .ok [.readTmp, .storeTmp, .output] ∧
    execL 1 [.readTmp, .storeTmp, .output] stZero = some (.error .valueError) := by
  refine ⟨?_, rfl, ?_⟩
  · intro fuel s h
    have : ¬(0 ≤ s.memory s.dataPtr ∧ s.memory s.dataPtr < 1114112) := by
      intro hc
      omega
    simp [execI, this]
  · simp [execL, execI, stZero, setMem]

/-- C10 witness: with -1 in the current cell the output statement raises. -/
theorem output_negative_cell_raises_witness :
    stNeg.memory stNeg.dataPtr < 0 ∧
    execI 0 .output stNeg = some (.error .valueError) :=
  ⟨by decide, output_negative_cell_raises.1 0 stNeg (by decide)⟩

/-- C5: once a load of a name has succeeded, a second load of the same name
returns the identical cached module, leaves the state unchanged, and
performs no file read and no translation. -/
theorem load_module_cached_second_call :
    ∀ imp st name m st1 ev, load_module imp st name = .ok (m, st1, ev) →
      load_module imp st1 name = .ok (m, st1, []) := by
  intro imp st name m st1 ev h
  unfold load_module at h ⊢
  cases hc : alookup name st.sysModules with
  | some m0 =>
    simp only [hc, Except.ok.injEq, Prod.mk.injEq] at h
    obtain ⟨hm, hst, _⟩ := h
    subst hm
    subst hst
    simp only [hc]
  | none =>
    simp only [hc] at h
    cases hp : find_module_path st.fs imp.file_extensions name st.sysPath with
    | none => simp [hp] at h
    | some path =>
      simp only [hp] at h
      cases hcode : alookup path st.fs with
      | none => simp [hcode] at h
      | some code =>
        simp only [hcode] at h
        cases hparse : parse_ast code with
        | error e => simp [hparse] at h
        | ok prog =>
          simp only [hparse, Except.ok.injEq, Prod.mk.injEq] at h
          obtain ⟨hm, hst, _⟩ := h
          subst hm
          subst hst
          simp [alookup]

/-- C5 witness: loading `m` from a one-file system reads and translates it;
the immediate second load returns the same module with no events. -/
theorem load_module_cached_second_call_witness :
    load_module defaultImporter ldSt0 ['m'] =
      .ok (mMod, ldSt1, [.fileRead ['m', '.', 'b', 'f'], .translated ['+']]) ∧
    load_module defaultImporter ldSt1 ['m'] = .ok (mMod, ldSt1, []) :=
  ⟨rfl, load_module_cached_second_call defaultImporter ldSt0 ['m'] mMod ldSt1
    [.fileRead ['m', '.', 'b', 'f'], .translated ['+']] rfl⟩

/-- Helper for C6: counting brainfuck importers distributes over list
append. -/
theorem countBf_append : ∀ l1 l2, countBf (l1 ++ l2) = countBf l1 + countBf l2 := by
  intro l1 l2
  induction l1 with
  | nil => simp [countBf]
  | cons e rest ih =>
    cases e with
    | bf i =>
      show countBf (.bf i :: (rest ++ l2)) = countBf (.bf i :: rest) + countBf l2
      simp only [countBf, ih]
      omega
    | other id =>
      show countBf (.other id :: (rest ++ l2)) = countBf (.other id :: rest) + countBf l2
      simp only [countBf, ih]

/-- C6: with no brainfuck importer on `sys.meta_path`, `install_import_hook`
appends one and returns `True`; with exactly one present it replaces it in
place, returns `False`, and exactly one remains; `remove_import_hook` with
none present returns `False` and changes nothing. -/
theorem install_replace_remove_hook :
    (∀ mp imp, countBf mp = 0 →
      install_import_hook imp mp = (true, mp ++ [.bf imp])) ∧
    (∀ pre old post imp, countBf pre = 0 →
      install_import_hook imp (pre ++ .bf old :: post) = (false, pre ++ .bf imp :: post)) ∧
    (∀ pre post imp, countBf pre = 0 → countBf post = 0 →
      countBf (pre ++ .bf imp :: post) = 1) ∧
    (∀ mp, countBf mp = 0 → remove_import_hook mp = (false, mp)) := by
  refine ⟨?_, ?_, ?_, ?_⟩
  · intro mp imp
    induction mp with
    | nil => intro _; rfl
    | cons e rest ih =>
      intro h
      cases e with
      | bf i => simp [countBf] at h
      | other id =>
        simp only [countBf] at h
        simp [install_import_hook, ih h]
  · intro pre old post imp
    induction pre with
    | nil => intro _; rfl
    | cons e rest ih =>
      intro h
      cases e with
      | bf i => simp [countBf] at h
      | other id =>
        simp only [countBf] at h
        simp [install_import_hook, ih h]
  · intro pre post imp h1 h2
    rw [countBf_append]
    simp [countBf, h1, h2]
  · intro mp
    induction mp with
    | nil => intro _; rfl
    | cons e rest ih =>
      intro h
      cases e with
      | bf i => simp [countBf] at h
      | other id =>
        simp only [countBf] at h
        simp [remove_import_hook, ih h]

/-- C6 witness: on a `sys.meta_path` holding one unrelated finder, the
first install appends and returns `True`, the second replaces in place and
returns `False` leaving one importer, and removing from the importer-free
list returns `False`. -/
theorem install_replace_remove_hook_witness :
    (countBf [.other 0] = 0 ∧
      install_import_hook defaultImporter [.other 0] =
        (true, [.other 0, .bf defaultImporter])) ∧
    install_import_hook defaultImporter [.other 0, .bf defaultImporter] =
      (false, [.other 0, .bf defaultImporter]) ∧
    countBf [.other 0, .bf defaultImporter] = 1 ∧
    remove_import_hook [.other 0] = (false, [.other 0]) :=
  ⟨⟨by decide, install_replace_remove_hook.1 [.other 0] defaultImporter (by decide)⟩,
   install_replace_remove_hook.2.1 [.other 0] defaultImporter [] defaultImporter (by decide),
   install_replace_remove_hook.2.2.1 [.other 0] [] defaultImporter (by decide) (by decide),
   install_replace_remove_hook.2.2.2 [.other 0] (by decide)⟩

/-- Helper for C7: the inner extension loop is a first-match search over
the candidate paths of one directory. -/
theorem findExtLoop_eq_find (fs : List (PyStr × PyStr)) (fullname basePath : PyStr) :
    ∀ exts, findExtLoop fs fullname basePath exts =
      (exts.map (fun ext => candidatePath fullname basePath ext)).find?
        (fun p => fileExists fs p) := by
  intro exts
  induction exts with
  | nil => rfl
  | cons ext rest ih =>
    cases h : fileExists fs (candidatePath fullname basePath ext) with
    | true => simp [findExtLoop, List.find?_cons, h]
    | false => simp [findExtLoop, List.find?_cons, h, ih]

/-- C7: `_find_module_path` walks directories in `sys.path` order and
extensions in order within each directory, and returns exactly the first
candidate path that exists, `None` when no candidate exists — the
first-match search the spec describes. -/
theorem find_module_path_first_existing_candidate :
    ∀ fs exts fullname sysPath,
      find_module_path fs exts fullname sysPath = resolveSpec sysPath exts fs fullname := by
  intro fs exts fullname sysPath
  induction sysPath with
  | nil => rfl
  | cons basePath rest ih =>
    unfold find_module_path resolveSpec resolveCandidates
    simp only [List.map_cons, List.flatten_cons, List.find?_append]
    rw [findExtLoop_eq_find]
    cases hfind : (exts.map (fun ext => candidatePath fullname basePath ext)).find?
        (fun p => fileExists fs p) with
    | some p => simp
    | none => simpa [resolveSpec, resolveCandidates] using ih

/-- C8: a call of a constructed string function leaves the closure exactly
as it was, so the result of `f(b)` after `f(a)` equals the result of `f(b)`
on the freshly constructed function: every call builds its own tape, data
pointer and buffers. -/
theorem function_calls_isolated :
    ∀ code f fuel a b, to_function code = .ok f →
      (invokeFunction ((invokeFunction f fuel a).2) fuel b).1 =
        (invokeFunction f fuel b).1 := by
  intro code f fuel a b _
  rfl

/-- C8 witness: the function compiled from `,` gives the same answer on
input `B` whether or not it was first called on input `A`. -/
theorem function_calls_isolated_witness :
    to_function [','] = .ok ⟨[.readTmp, .storeTmp]⟩ ∧
    (invokeFunction ((invokeFunction ⟨[.readTmp, .storeTmp]⟩ 1 [65]).2) 1 [66]).1 =
      (invokeFunction ⟨[.readTmp, .storeTmp]⟩ 1 [66]).1 :=
  ⟨rfl, function_calls_isolated [','] ⟨[.readTmp, .storeTmp]⟩ 1 [65] [66] rfl⟩

/-- C9: removing the import hook does not touch `sys.modules`: every module
already loaded is still found by cache lookup under its name, and a load of
that name still returns it unchanged with no file read or translation. -/
theorem remove_hook_keeps_loaded_units :
    ∀ g name m, alookup name g.loader.sysModules = some m →
      (removeHookGlobal g).2.loader = g.loader ∧
      alookup name (removeHookGlobal g).2.loader.sysModules = some m ∧
      ∀ imp, load_module imp (removeHookGlobal g).2.loader name =
        .ok (m, (removeHookGlobal g).2.loader, []) := by
  intro g name m h
  refine ⟨rfl, h, fun imp => ?_⟩
  show load_module imp g.loader name = .ok (m, g.loader, [])
  unfold load_module
  rw [h]

/-- C9 witness: after removing the hook from a state with `m` loaded, the
cache still returns module `m`. -/
theorem remove_hook_keeps_loaded_units_witness :
    alookup ['m'] gSt1.loader.sysModules = some mMod ∧
    (removeHookGlobal gSt1).2.loader = gSt1.loader ∧
    load_module defaultImporter (removeHookGlobal gSt1).2.loader ['m'] =
      .ok (mMod, (removeHookGlobal gSt1).2.loader, []) :=
  ⟨rfl, (remove_hook_keeps_loaded_units gSt1 ['m'] mMod rfl).1,
   (remove_hook_keeps_loaded_units gSt1 ['m'] mMod rfl).2.2 defaultImporter⟩

end BF
